import Mathlib

/-!
Verification of the temporal-window / relativistic-conversion core of Clara 2
(`src/include/discrete.hpp`), shallowly embedded in Lean 4.

C++ `double` arithmetic is modelled by exact real arithmetic (`ℝ`).  A C++
pointer `const Discrete<double>*` to the shared time axis is modelled as an
`Option Addr` (with `none` as the null pointer) together with a heap
`Addr → Discrete ℝ` assigning a time-axis window to every address; pointer
equality in the source (`assert(copy.h == h)`) becomes equality of addresses,
and dereferencing returns an `Option` that is `none` exactly on the null
pointer.  Operations that in C++ mutate `*this` are written as functions from
the old window to the new one.
-/

set_option maxHeartbeats 1000000

/-- Addresses of time-axis windows: model of C++ pointers `const Discrete<double>*`.
The null pointer is `(none : Option Addr)`. -/
abbrev Addr : Type := Nat

/-- The storage class `Discrete<T>` of discrete.hpp: four values of the same
quantity at the consecutive timesteps t-3 (`old2`), t-2 (`old`), t-1 (`now`),
t (`future`), plus the member `h`, a possibly-null pointer to the time-axis
window `Discrete<double>`. -/
structure Discrete (T : Type) where
  old2 : T
  old : T
  now : T
  future : T
  h : Option Addr

/-- A heap of time-axis windows, one per address; models the memory the
time-axis pointer `h` points into. -/
abbrev Heap : Type := Addr → Discrete ℝ

namespace Discrete

/-- The fully-populating constructor `Discrete(old2, old, now, future, h)`. -/
def construct {T : Type} (old2 old now future : T) (h : Option Addr) : Discrete T :=
  ⟨old2, old, now, future, h⟩

/-- The fully-populating constructor with the pointer argument omitted: the
C++ default argument `const Discrete<double>* h = 0` makes the axis null. -/
def constructNoAxis {T : Type} (old2 old now future : T) : Discrete T :=
  construct old2 old now future none

/-- The data-less constructor `Discrete(h)`: the four values are left
uninitialized in C++; we model them by an arbitrary default. -/
def constructEmpty (T : Type) [Inhabited T] (h : Option Addr) : Discrete T :=
  ⟨default, default, default, default, h⟩

/-- The data-less constructor with the pointer argument omitted: the C++
default argument makes the axis null. -/
def constructEmptyNoAxis (T : Type) [Inhabited T] : Discrete T :=
  constructEmpty T none

/-- `operator=`: asserts `copy.h == h` (identical time-axis pointer), then
copies the four data members.  The failed assertion (abort) is modelled by
`none`. -/
def assign {T : Type} (self co : Discrete T) : Option (Discrete T) :=
  if co.h = self.h then
    some { self with old2 := co.old2, old := co.old, now := co.now, future := co.future }
  else
    none

/-- `next(next)`: sets a new future value and moves data down,
`old2 = old; old = now; now = future; future = next`. -/
def next {T : Type} (d : Discrete T) (nxt : T) : Discrete T :=
  { d with old2 := d.old, old := d.now, now := d.future, future := nxt }

/-- `get_old2()`: value for time t-3. -/
def get_old2 {T : Type} (d : Discrete T) : T := d.old2

/-- `get_old()`: value for time t-2. -/
def get_old {T : Type} (d : Discrete T) : T := d.old

/-- `get_now()`: value for time t-1. -/
def get_now {T : Type} (d : Discrete T) : T := d.now

/-- `get_future()`: value for time t-0. -/
def get_future {T : Type} (d : Discrete T) : T := d.future

/-- `get_delta_old()`: `get_now() - get_old()`. -/
def get_delta_old {T : Type} [Sub T] (d : Discrete T) : T :=
  d.get_now - d.get_old

/-- `dot_old()`: second-order symmetric time derivative for time t-2,
`(now - old2)/(h->get_now() - h->get_old2())`.  The dereference of the
time-axis pointer is the `Option.map`: on a null axis the result is `none`. -/
def dot_old {T : Type} [Sub T] [HDiv T ℝ T] (heap : Heap) (d : Discrete T) : Option T :=
  d.h.map fun a => (d.now - d.old2) / ((heap a).get_now - (heap a).get_old2)

/-- `dot_now()`: second-order symmetric time derivative for time t-1,
`(future - old)/(h->get_future() - h->get_old())`. -/
def dot_now {T : Type} [Sub T] [HDiv T ℝ T] (heap : Heap) (d : Discrete T) : Option T :=
  d.h.map fun a => (d.future - d.old) / ((heap a).get_future - (heap a).get_old)

end Discrete

/-- Modelled from the spec: the 3-vector-of-doubles type `R_vec` used for
momentum samples; its definition (utilities.hpp) is not under src.  The spec
describes the payload as a "3-vector of doubles" with componentwise
subtraction, scaling by a scalar, and a Euclidean norm. -/
@[ext]
structure R_vec where
  x : ℝ
  y : ℝ
  z : ℝ

/-- Componentwise subtraction of 3-vectors. -/
instance : Sub R_vec :=
  ⟨fun a b => ⟨a.x - b.x, a.y - b.y, a.z - b.z⟩⟩

/-- Scaling a 3-vector by a scalar on the right, as in `p*phy::c`. -/
instance : HMul R_vec ℝ R_vec :=
  ⟨fun v s => ⟨v.x * s, v.y * s, v.z * s⟩⟩

/-- Componentwise division of a 3-vector by a scalar. -/
noncomputable instance : HDiv R_vec ℝ R_vec :=
  ⟨fun v s => ⟨v.x / s, v.y / s, v.z / s⟩⟩

theorem R_vec.sub_def (a b : R_vec) : a - b = ⟨a.x - b.x, a.y - b.y, a.z - b.z⟩ := rfl

theorem R_vec.mul_def (v : R_vec) (s : ℝ) : v * s = ⟨v.x * s, v.y * s, v.z * s⟩ := rfl

theorem R_vec.div_def (v : R_vec) (s : ℝ) : v / s = ⟨v.x / s, v.y / s, v.z / s⟩ := rfl

/-- Modelled from the spec: the Euclidean norm of a 3-vector (spec §2: "scalar/
vector arithmetic primitives (square, norm)"). -/
noncomputable def R_vec.norm (v : R_vec) : ℝ :=
  Real.sqrt (v.x ^ 2 + v.y ^ 2 + v.z ^ 2)

namespace util

/-- `util::square` on scalars: `x*x`.  Modelled from the spec: utilities.hpp is
not under src; the spec lists `square` among the arithmetic primitives. -/
def square (x : ℝ) : ℝ := x * x

/-- `util::square<R_vec, double>` on 3-vectors: the squared Euclidean norm
`v·v`.  Modelled from the spec: the spec's γ formula reads the squared term as
"the magnitude of momentum scaled by the speed of light (norm for vector
momentum)". -/
def squareV (v : R_vec) : ℝ := v.x * v.x + v.y * v.y + v.z * v.z

end util

namespace phy

/-- Modelled from the spec: the speed of light `phy::c` (physics_units.hpp is
not under src); SI value in m/s. -/
def c : ℝ := 299792458

/-- Modelled from the spec: the electron rest mass `phy::m_e`; SI value
9.1093837015e-31 kg written as a fraction. -/
noncomputable def m_e : ℝ := 91093837015 / 10 ^ 41

theorem c_pos : 0 < c := by norm_num [c]

theorem m_e_pos : 0 < m_e := by norm_num [m_e]

end phy

/-- The converter class `More_discrete`: holds the pointer `stepwidth` to the
time values, used only to bind the windows it creates. -/
structure More_discrete where
  stepwidth : Option Addr

namespace More_discrete

/-- `More_discrete::gamma(p)`: single gamma value from a momentum value,
`sqrt(square<R_vec,double>(p*c) + square(m_e*square(c))) / (m_e*square(c))`. -/
noncomputable def gamma (_m : More_discrete) (p : R_vec) : ℝ :=
  Real.sqrt (util.squareV (p * phy.c) + util.square (phy.m_e * util.square phy.c)) /
    (phy.m_e * util.square phy.c)

/-- `More_discrete::beta(p, gamma)`: single beta value,
`p*(1.0/(c*m_e*gamma))`. -/
noncomputable def beta (_m : More_discrete) (p : R_vec) (gam : ℝ) : R_vec :=
  p * (1 / (phy.c * phy.m_e * gam))

/-- `More_discrete::momentum_to_gamma(p)`: the gamma window, one `gamma` per
slot, bound to the converter's `stepwidth`. -/
noncomputable def momentum_to_gamma (m : More_discrete) (p : Discrete R_vec) : Discrete ℝ :=
  Discrete.construct (m.gamma p.get_old2) (m.gamma p.get_old) (m.gamma p.get_now)
    (m.gamma p.get_future) m.stepwidth

/-- `More_discrete::momentum_to_beta(p, gamma)`: the beta window, one `beta`
per slot pairing same-index momentum and gamma samples, bound to the
converter's `stepwidth`. -/
noncomputable def momentum_to_beta (m : More_discrete) (p : Discrete R_vec)
    (gam : Discrete ℝ) : Discrete R_vec :=
  Discrete.construct (m.beta p.get_old2 gam.get_old2) (m.beta p.get_old gam.get_old)
    (m.beta p.get_now gam.get_now) (m.beta p.get_future gam.get_future) m.stepwidth

end More_discrete

theorem R_vec.norm_nonneg (v : R_vec) : 0 ≤ v.norm :=
  Real.sqrt_nonneg _

theorem R_vec.norm_sq (v : R_vec) : v.norm ^ 2 = v.x ^ 2 + v.y ^ 2 + v.z ^ 2 :=
  Real.sq_sqrt (by positivity)

theorem R_vec.norm_mul (v : R_vec) (s : ℝ) : (v * s).norm = v.norm * |s| := by
  unfold R_vec.norm
  simp only [R_vec.mul_def]
  rw [show (v.x * s) ^ 2 + (v.y * s) ^ 2 + (v.z * s) ^ 2 =
        (v.x ^ 2 + v.y ^ 2 + v.z ^ 2) * s ^ 2 by ring,
      Real.sqrt_mul (by positivity), Real.sqrt_sq_eq_abs]

theorem util.squareV_mul (v : R_vec) (s : ℝ) :
    util.squareV (v * s) = (R_vec.norm v * s) ^ 2 := by
  rw [mul_pow, R_vec.norm_sq]
  simp only [util.squareV, R_vec.mul_def]
  ring

/-- The source's gamma formula rewritten with the Euclidean norm: the form the
spec states it in.  Purely algebraic: `square<R_vec,double>(p*c) = (|p| c)²`
and `square(m_e square(c)) = (m_e c²)²`. -/
theorem More_discrete.gamma_norm_form (m : More_discrete) (p : R_vec) :
    m.gamma p =
      Real.sqrt ((R_vec.norm p * phy.c) ^ 2 + (phy.m_e * phy.c ^ 2) ^ 2) /
        (phy.m_e * phy.c ^ 2) := by
  have h1 : util.square (phy.m_e * util.square phy.c) = (phy.m_e * phy.c ^ 2) ^ 2 := by
    unfold util.square; ring
  have h2 : phy.m_e * util.square phy.c = phy.m_e * phy.c ^ 2 := by
    unfold util.square; ring
  unfold More_discrete.gamma
  rw [util.squareV_mul, h1, h2]

theorem More_discrete.one_le_gamma (m : More_discrete) (p : R_vec) : 1 ≤ m.gamma p := by
  have hB : 0 < phy.m_e * phy.c ^ 2 := mul_pos phy.m_e_pos (pow_pos phy.c_pos 2)
  rw [More_discrete.gamma_norm_form, le_div_iff₀ hB, one_mul]
  exact Real.le_sqrt_of_sq_le (by nlinarith [sq_nonneg (R_vec.norm p * phy.c)])

theorem More_discrete.beta_eq_div (m : More_discrete) (p : R_vec) (g : ℝ) :
    m.beta p g = p / (phy.c * phy.m_e * g) := by
  unfold More_discrete.beta
  rw [R_vec.mul_def, R_vec.div_def]
  simp only [R_vec.mk.injEq]
  exact ⟨mul_one_div _ _, mul_one_div _ _, mul_one_div _ _⟩

/-- CLAIM C1: `momentum_to_gamma` returns a window bound to the converter's
time axis whose four slots are, independently per slot,
`sqrt((|p_i| c)² + (m_e c²)²) / (m_e c²)`. -/
theorem C1_momentum_to_gamma_spec (m : More_discrete) (p : Discrete R_vec) :
    m.momentum_to_gamma p =
      Discrete.construct
        (Real.sqrt ((R_vec.norm p.old2 * phy.c) ^ 2 + (phy.m_e * phy.c ^ 2) ^ 2) /
          (phy.m_e * phy.c ^ 2))
        (Real.sqrt ((R_vec.norm p.old * phy.c) ^ 2 + (phy.m_e * phy.c ^ 2) ^ 2) /
          (phy.m_e * phy.c ^ 2))
        (Real.sqrt ((R_vec.norm p.now * phy.c) ^ 2 + (phy.m_e * phy.c ^ 2) ^ 2) /
          (phy.m_e * phy.c ^ 2))
        (Real.sqrt ((R_vec.norm p.future * phy.c) ^ 2 + (phy.m_e * phy.c ^ 2) ^ 2) /
          (phy.m_e * phy.c ^ 2))
        m.stepwidth := by
  unfold More_discrete.momentum_to_gamma
  simp only [Discrete.get_old2, Discrete.get_old, Discrete.get_now, Discrete.get_future,
    More_discrete.gamma_norm_form]

/-- CLAIM C2: `momentum_to_beta` returns a window bound to the converter's
time axis whose slot i is `p_i / (c m_e g_i)`, pairing momentum and gamma
samples of the same index. -/
theorem C2_momentum_to_beta_spec (m : More_discrete) (p : Discrete R_vec)
    (g : Discrete ℝ) :
    m.momentum_to_beta p g =
      Discrete.construct
        (p.old2 / (phy.c * phy.m_e * g.old2))
        (p.old / (phy.c * phy.m_e * g.old))
        (p.now / (phy.c * phy.m_e * g.now))
        (p.future / (phy.c * phy.m_e * g.future))
        m.stepwidth := by
  unfold More_discrete.momentum_to_beta
  simp only [Discrete.get_old2, Discrete.get_old, Discrete.get_now, Discrete.get_future,
    More_discrete.beta_eq_div]

/-- CLAIM C5: the per-sample gamma is always at least 1, is exactly 1 on the
zero momentum vector, and the zero momentum window maps to the gamma window
(1,1,1,1). -/
theorem C5_gamma_ge_one (m : More_discrete) (h : Option Addr) :
    (∀ p : R_vec, 1 ≤ m.gamma p) ∧
    m.gamma ⟨0, 0, 0⟩ = 1 ∧
    m.momentum_to_gamma
        (Discrete.construct ⟨0, 0, 0⟩ ⟨0, 0, 0⟩ ⟨0, 0, 0⟩ ⟨0, 0, 0⟩ h) =
      Discrete.construct 1 1 1 1 m.stepwidth := by
  have hB : 0 < phy.m_e * phy.c ^ 2 := mul_pos phy.m_e_pos (pow_pos phy.c_pos 2)
  have hzero : m.gamma ⟨0, 0, 0⟩ = 1 := by
    have hn : R_vec.norm ⟨0, 0, 0⟩ = 0 := by
      unfold R_vec.norm; simp
    have hsq : ((0 : ℝ) * phy.c) ^ 2 + (phy.m_e * phy.c ^ 2) ^ 2 =
        (phy.m_e * phy.c ^ 2) ^ 2 := by ring
    rw [More_discrete.gamma_norm_form, hn, hsq, Real.sqrt_sq hB.le,
      div_self (ne_of_gt hB)]
  refine ⟨m.one_le_gamma, hzero, ?_⟩
  unfold More_discrete.momentum_to_gamma
  simp [Discrete.construct, Discrete.get_old2, Discrete.get_old, Discrete.get_now,
    Discrete.get_future, hzero]

/-- Witness for C5 at the zero momentum window with a concrete axis. -/
theorem C5_gamma_ge_one_witness :
    1 ≤ More_discrete.gamma ⟨some 0⟩ ⟨2, 3, 6⟩ ∧
    More_discrete.gamma ⟨some 0⟩ ⟨0, 0, 0⟩ = 1 ∧
    More_discrete.momentum_to_gamma ⟨some 0⟩
        (Discrete.construct ⟨0, 0, 0⟩ ⟨0, 0, 0⟩ ⟨0, 0, 0⟩ ⟨0, 0, 0⟩ (some 0)) =
      Discrete.construct 1 1 1 1 (some 0) :=
  ⟨(C5_gamma_ge_one ⟨some 0⟩ (some 0)).1 ⟨2, 3, 6⟩,
   (C5_gamma_ge_one ⟨some 0⟩ (some 0)).2.1,
   (C5_gamma_ge_one ⟨some 0⟩ (some 0)).2.2⟩

/-- CLAIM C6: for every momentum sample paired with its own derived gamma, the
beta vector has Euclidean norm strictly below 1. -/
theorem C6_beta_norm_lt_one (m : More_discrete) (p : R_vec) :
    R_vec.norm (m.beta p (m.gamma p)) < 1 := by
  have hc := phy.c_pos
  have hm := phy.m_e_pos
  have hB : 0 < phy.m_e * phy.c ^ 2 := mul_pos hm (pow_pos hc 2)
  have hg : 0 < m.gamma p := lt_of_lt_of_le one_pos (m.one_le_gamma p)
  have hd : 0 < phy.c * phy.m_e * m.gamma p := mul_pos (mul_pos hc hm) hg
  have hnorm : R_vec.norm (m.beta p (m.gamma p)) =
      R_vec.norm p * (1 / (phy.c * phy.m_e * m.gamma p)) := by
    unfold More_discrete.beta
    rw [R_vec.norm_mul, abs_of_pos (one_div_pos.mpr hd)]
  have hQ : R_vec.norm p * phy.c <
      Real.sqrt ((R_vec.norm p * phy.c) ^ 2 + (phy.m_e * phy.c ^ 2) ^ 2) :=
    Real.lt_sqrt_of_sq_lt (by nlinarith [pow_pos hB 2])
  have hQg : m.gamma p * (phy.m_e * phy.c ^ 2) =
      Real.sqrt ((R_vec.norm p * phy.c) ^ 2 + (phy.m_e * phy.c ^ 2) ^ 2) := by
    rw [More_discrete.gamma_norm_form, div_mul_cancel₀]
    exact ne_of_gt hB
  rw [hnorm, mul_one_div, div_lt_one hd]
  nlinarith [hQ, hQg, hc]

/-- CLAIM C7: the round trip `beta(p, gamma(p)) * (c m_e gamma(p))` reproduces
the momentum sample exactly in exact real arithmetic. -/
theorem C7_round_trip (m : More_discrete) (p : R_vec) :
    m.beta p (m.gamma p) * (phy.c * phy.m_e * m.gamma p) = p := by
  have hg : 0 < m.gamma p := lt_of_lt_of_le one_pos (m.one_le_gamma p)
  have hd : phy.c * phy.m_e * m.gamma p ≠ 0 :=
    ne_of_gt (mul_pos (mul_pos phy.c_pos phy.m_e_pos) hg)
  unfold More_discrete.beta
  rw [R_vec.mul_def, R_vec.mul_def]
  ext <;> field_simp

/-- CLAIM C3: advancing a window initialized with `v0,v1,v2,v3` by `v4` yields
the window `(v1,v2,v3,v4)`: `next` shifts old2←old, old←now, now←future,
future←nextValue, and leaves the axis binding untouched. -/
theorem C3_next_shifts (T : Type) (v0 v1 v2 v3 v4 : T) (h : Option Addr) :
    (Discrete.construct v0 v1 v2 v3 h).next v4 = Discrete.construct v1 v2 v3 v4 h :=
  rfl

/-- CLAIM C4: on a window bound to axis address `a`, `dot_old` returns
`(now - old2)/(axis.now - axis.old2)` and `dot_now` returns
`(future - old)/(axis.future - axis.old)`: the same centered stencil shifted
by one timestep. -/
theorem C4_dot_stencils (T : Type) [Sub T] [HDiv T ℝ T] (heap : Heap)
    (d : Discrete T) (a : Addr) (ha : d.h = some a) :
    Discrete.dot_old heap d = some ((d.now - d.old2) / ((heap a).now - (heap a).old2)) ∧
    Discrete.dot_now heap d = some ((d.future - d.old) / ((heap a).future - (heap a).old)) := by
  constructor
  · simp [Discrete.dot_old, ha, Discrete.get_now, Discrete.get_old2]
  · simp [Discrete.dot_now, ha, Discrete.get_future, Discrete.get_old]

/-- Witness for C4 at a concrete window bound to a concrete axis. -/
theorem C4_dot_stencils_witness :
    Discrete.dot_old (fun _ => Discrete.construct (0 : ℝ) 1 2 3 none)
        (Discrete.construct (5 : ℝ) 6 7 8 (some 0)) =
      some ((7 - 5) / (2 - 0)) ∧
    Discrete.dot_now (fun _ => Discrete.construct (0 : ℝ) 1 2 3 none)
        (Discrete.construct (5 : ℝ) 6 7 8 (some 0)) =
      some ((8 - 6) / (3 - 1)) :=
  C4_dot_stencils ℝ (fun _ => Discrete.construct (0 : ℝ) 1 2 3 none)
    (Discrete.construct (5 : ℝ) 6 7 8 (some 0)) 0 rfl

/-- CLAIM C8: copy-assignment succeeds exactly when both windows carry the
identical time-axis pointer; in that case it copies exactly the four values
from the source and keeps the target's own axis binding. -/
theorem C8_assign_contract (T : Type) (self co : Discrete T) :
    ((Discrete.assign self co).isSome ↔ co.h = self.h) ∧
    (co.h = self.h →
      Discrete.assign self co =
        some (Discrete.construct co.old2 co.old co.now co.future self.h)) := by
  constructor
  · by_cases hEq : co.h = self.h
    · simp [Discrete.assign, hEq]
    · simp [Discrete.assign, hEq]
  · intro hEq
    simp [Discrete.assign, hEq, Discrete.construct]

/-- Witness for C8: equal-axis assignment copies the values, and a
different-axis assignment trips the assertion. -/
theorem C8_assign_contract_witness :
    Discrete.assign (Discrete.construct (0 : ℝ) 0 0 0 (some 3))
        (Discrete.construct (1 : ℝ) 2 3 4 (some 3)) =
      some (Discrete.construct (1 : ℝ) 2 3 4 (some 3)) :=
  (C8_assign_contract ℝ (Discrete.construct (0 : ℝ) 0 0 0 (some 3))
    (Discrete.construct (1 : ℝ) 2 3 4 (some 3))).2 rfl

/-- CLAIM C9: on a window holding a quadratic `a t² + b t + q` sampled at the
uniformly spaced axis times `t0, t0+h, t0+2h, t0+3h` (h ≠ 0), `dot_old`
returns exactly the analytic derivative at `t0+h` and `dot_now` the analytic
derivative at `t0+2h`. -/
theorem C9_quadratic_exact (a b q t0 step : ℝ) (hstep : step ≠ 0) (heap : Heap)
    (ad : Addr) (d : Discrete ℝ)
    (hh : d.h = some ad)
    (h0 : (heap ad).old2 = t0)
    (h1 : (heap ad).old = t0 + step)
    (h2 : (heap ad).now = t0 + 2 * step)
    (h3 : (heap ad).future = t0 + 3 * step)
    (hv0 : d.old2 = a * t0 ^ 2 + b * t0 + q)
    (hv1 : d.old = a * (t0 + step) ^ 2 + b * (t0 + step) + q)
    (hv2 : d.now = a * (t0 + 2 * step) ^ 2 + b * (t0 + 2 * step) + q)
    (hv3 : d.future = a * (t0 + 3 * step) ^ 2 + b * (t0 + 3 * step) + q) :
    Discrete.dot_old heap d = some (2 * a * (t0 + step) + b) ∧
    Discrete.dot_now heap d = some (2 * a * (t0 + 2 * step) + b) := by
  constructor
  · simp only [Discrete.dot_old, hh, Option.map_some', Discrete.get_now, Discrete.get_old2,
      h0, h2, hv0, hv2, Option.some.injEq]
    rw [show t0 + 2 * step - t0 = 2 * step by ring,
      div_eq_iff (mul_ne_zero two_ne_zero hstep)]
    ring
  · simp only [Discrete.dot_now, hh, Option.map_some', Discrete.get_future, Discrete.get_old,
      h1, h3, hv1, hv3, Option.some.injEq]
    rw [show t0 + 3 * step - (t0 + step) = 2 * step by ring,
      div_eq_iff (mul_ne_zero two_ne_zero hstep)]
    ring

/-- Witness for C9: axis (0,1,2,3), window (0,1,4,9) (the quadratic t²):
`dot_old` is 2 and `dot_now` is 4. -/
theorem C9_quadratic_exact_witness :
    Discrete.dot_old (fun _ => Discrete.construct (0 : ℝ) 1 2 3 none)
        (Discrete.construct (0 : ℝ) 1 4 9 (some 0)) = some 2 ∧
    Discrete.dot_now (fun _ => Discrete.construct (0 : ℝ) 1 2 3 none)
        (Discrete.construct (0 : ℝ) 1 4 9 (some 0)) = some 4 := by
  have h := C9_quadratic_exact 1 0 0 0 1 one_ne_zero
    (fun _ => Discrete.construct (0 : ℝ) 1 2 3 none) 0
    (Discrete.construct (0 : ℝ) 1 4 9 (some 0)) rfl
    (by norm_num [Discrete.construct]) (by norm_num [Discrete.construct])
    (by norm_num [Discrete.construct]) (by norm_num [Discrete.construct])
    (by norm_num [Discrete.construct]) (by norm_num [Discrete.construct])
    (by norm_num [Discrete.construct]) (by norm_num [Discrete.construct])
  constructor
  · have h1 := h.1
    norm_num at h1
    exact h1
  · have h2 := h.2
    norm_num at h2
    exact h2

/-- CLAIM C10: constructors with the pointer argument omitted bind a null
axis; `dot_old`/`dot_now` dereference the axis and are well-defined exactly
when the window carries a non-null axis; and neither `next` nor a successful
assignment ever changes the axis binding. -/
theorem C10_axis_null_safety (T : Type) [Inhabited T] [Sub T] [HDiv T ℝ T]
    (heap : Heap) (v0 v1 v2 v3 v : T) (d e : Discrete T) (a : Addr) :
    (Discrete.constructNoAxis v0 v1 v2 v3).h = none ∧
    (Discrete.constructEmptyNoAxis T).h = none ∧
    (d.h = some a →
      (Discrete.dot_old heap d).isSome ∧ (Discrete.dot_now heap d).isSome) ∧
    (d.h = none →
      Discrete.dot_old heap d = none ∧ Discrete.dot_now heap d = none) ∧
    (d.next v).h = d.h ∧
    (∀ r, Discrete.assign d e = some r → r.h = d.h) := by
  refine ⟨rfl, rfl, ?_, ?_, rfl, ?_⟩
  · intro hd
    simp [Discrete.dot_old, Discrete.dot_now, hd]
  · intro hd
    simp [Discrete.dot_old, Discrete.dot_now, hd]
  · intro r hr
    unfold Discrete.assign at hr
    split at hr
    · injection hr with hr'
      subst hr'
      rfl
    · simp at hr

/-- Witness for C10 at a concrete real-valued window: the non-null axis makes
both derivatives defined, and the omitted-pointer constructor is null-bound. -/
theorem C10_axis_null_safety_witness :
    (Discrete.dot_old (fun _ => Discrete.construct (0 : ℝ) 1 2 3 none)
        (Discrete.construct (5 : ℝ) 6 7 8 (some 0))).isSome ∧
    (Discrete.dot_old (fun _ => Discrete.construct (0 : ℝ) 1 2 3 none)
        (Discrete.constructNoAxis (5 : ℝ) 6 7 8)) = none ∧
    (Discrete.constructNoAxis (5 : ℝ) 6 7 8).h = none :=
  ⟨((C10_axis_null_safety ℝ (fun _ => Discrete.construct (0 : ℝ) 1 2 3 none)
      5 6 7 8 9 (Discrete.construct (5 : ℝ) 6 7 8 (some 0))
      (Discrete.construct (5 : ℝ) 6 7 8 (some 0)) 0).2.2.1 rfl).1,
   ((C10_axis_null_safety ℝ (fun _ => Discrete.construct (0 : ℝ) 1 2 3 none)
      5 6 7 8 9 (Discrete.constructNoAxis (5 : ℝ) 6 7 8)
      (Discrete.construct (5 : ℝ) 6 7 8 (some 0)) 0).2.2.2.1 rfl).1,
   (C10_axis_null_safety ℝ (fun _ => Discrete.construct (0 : ℝ) 1 2 3 none)
      5 6 7 8 9 (Discrete.constructNoAxis (5 : ℝ) 6 7 8)
      (Discrete.construct (5 : ℝ) 6 7 8 (some 0)) 0).1⟩
